import Mathlib

/-!
Shallow embedding of the pint quantity/system core (src/pint/quantity.py and
src/pint/systems.py) together with theorems settling the specification claims.

Magnitudes and exponents are modelled as rationals.  A UnitsContainer is kept
in canonical form (no zero exponents, a fixed key order), so structural
equality of the embedding coincides with the dict equality used by the source.
-/

namespace Pint

/-- Error values surfaced by the embedded operations: the DimensionalityError
of pint.unit, and the ValueError and TypeError of the Python runtime. -/
inductive PintError where
  | dimensionalityError
  | valueError (msg : String)
  | typeError (msg : String)
deriving DecidableEq, Repr

/-- A UnitsContainer in canonical form: an association list from unit name to
non-zero rational exponent.  The empty list is the dimensionless container. -/
abbrev UC := List (String × ℚ)

/-- The magnitude/units pair of src/pint/quantity.py (_Quantity). -/
structure Quantity where
  magnitude : ℚ
  units : UC
deriving DecidableEq, Repr

/-- Modelled from the spec (section 6, External Interfaces): the Registry
collaborator, which lives outside src/.  It supplies expression parsing,
the reference rescale factor with its base units, and the dimensionality
mapping of a UnitsContainer. -/
structure Registry where
  parse_expression : String → Quantity
  base_units_of : UC → ℚ × UC
  base_dimensionality_of : UC → UC

/-- Modelled from the spec (section 6): Registry.convert fails with a
dimensionality error when the two units are not dimensionally compatible,
and otherwise rescales through the reference factors supplied by
base_units_of. -/
def Registry.convert (R : Registry) (mag : ℚ) (fromU toU : UC) : Except PintError ℚ :=
  if R.base_dimensionality_of fromU = R.base_dimensionality_of toU then
    .ok (mag * (R.base_units_of fromU).1 / (R.base_units_of toU).1)
  else
    .error .dimensionalityError

/-- The dimensionality property of _Quantity: base_dimensionality_of(units). -/
def Quantity.dimensionality (R : Registry) (q : Quantity) : UC :=
  R.base_dimensionality_of q.units

/-- The convert_to_reference method of _Quantity: rescale by the (factor,
units) pair returned by base_units_of. -/
def Quantity.convert_to_reference (R : Registry) (q : Quantity) : Quantity :=
  ⟨q.magnitude * (R.base_units_of q.units).1, (R.base_units_of q.units).2⟩

/-- The dimensionless property of _Quantity: the dimensionality of the
quantity rescaled to reference units is empty. -/
def Quantity.dimensionless (R : Registry) (q : Quantity) : Bool :=
  (R.base_dimensionality_of (q.convert_to_reference R).units).isEmpty

/-- The to/ito methods of _Quantity: convert the magnitude and take the
units of the target. -/
def Quantity.to (R : Registry) (q target : Quantity) : Except PintError Quantity := do
  let m ← R.convert q.magnitude q.units target.units
  pure ⟨m, target.units⟩

/-- The right operand of a binary _Quantity operation: either another
Quantity or a bare (non-Quantity) number. -/
inductive Operand where
  | quantity (q : Quantity)
  | scalar (x : ℚ)
deriving DecidableEq, Repr

/-- The iadd_sub method of _Quantity: dimensionality check, conversion of a
Quantity operand with different units, and the dimensionless gate for bare
numbers. -/
def Quantity.iadd_sub (R : Registry) (self : Quantity) (other : Operand)
    (f : ℚ → ℚ → ℚ) : Except PintError Quantity :=
  match other with
  | .quantity o =>
      if ¬ (self.dimensionality R = o.dimensionality R) then
        .error .dimensionalityError
      else if self.units = o.units then
        .ok ⟨f self.magnitude o.magnitude, self.units⟩
      else do
        let c ← o.to R self
        pure ⟨f self.magnitude c.magnitude, self.units⟩
  | .scalar x =>
      if self.dimensionless R then
        .ok ⟨f self.magnitude x, self.units⟩
      else
        .error .dimensionalityError

/-- The add_sub method of _Quantity: copy self and run the in-place form on
the copy; in a pure embedding this is the same function as iadd_sub. -/
def Quantity.add_sub (R : Registry) (self : Quantity) (other : Operand)
    (f : ℚ → ℚ → ℚ) : Except PintError Quantity :=
  self.iadd_sub R other f

/-- The addition operator of _Quantity (copy form). -/
def Quantity.add (R : Registry) (self : Quantity) (other : Operand) :
    Except PintError Quantity :=
  self.add_sub R other (· + ·)

/-- The subtraction operator of _Quantity (copy form). -/
def Quantity.sub (R : Registry) (self : Quantity) (other : Operand) :
    Except PintError Quantity :=
  self.add_sub R other (· - ·)

/-- The reflected subtraction operator of _Quantity.  In the source it is
bound to the very same function object as plain subtraction. -/
def Quantity.rsub (R : Registry) (self : Quantity) (other : Operand) :
    Except PintError Quantity :=
  self.sub R other

/-- The meaning of the Python expression n - q for a bare number n and a
Quantity q: the number does not know Quantity, so Python dispatches to the
reflected operator of q. -/
def scalarSubQuantity (R : Registry) (n : ℚ) (q : Quantity) :
    Except PintError Quantity :=
  q.rsub R (.scalar n)

/-- The equality operator of _Quantity.  A non-Quantity operand requires a
dimensionless left side; two zero magnitudes compare by dimensionality;
identical units compare magnitudes; otherwise a conversion is attempted and
a DimensionalityError (the only error Registry.convert produces) degrades
to false. -/
def Quantity.eq (R : Registry) (self : Quantity) (other : Operand) : Bool :=
  match other with
  | .scalar x => self.dimensionless R && decide (self.magnitude = x)
  | .quantity o =>
      if self.magnitude = 0 ∧ o.magnitude = 0 then
        decide (self.dimensionality R = o.dimensionality R)
      else if self.units = o.units then
        decide (self.magnitude = o.magnitude)
      else
        match self.to R o with
        | .ok c => decide (c.magnitude = o.magnitude)
        | .error _ => false

/-- The ordering operator of _Quantity, kept exactly as the source writes
it: the final branch compares the reference magnitude of self with the
reference magnitude of self. -/
def Quantity.lt (R : Registry) (self : Quantity) (other : Operand) :
    Except PintError Bool :=
  match other with
  | .scalar x =>
      if self.dimensionless R then
        .ok (decide (self.magnitude < x))
      else
        .error (.valueError "Cannot compare Quantity and non-Quantity")
  | .quantity o =>
      if self.units = o.units then
        .ok (decide (self.magnitude < o.magnitude))
      else if ¬ (self.dimensionality R = o.dimensionality R) then
        .error .dimensionalityError
      else
        .ok (decide ((self.convert_to_reference R).magnitude <
                     (self.convert_to_reference R).magnitude))

/-- The value argument of the _Quantity constructor. -/
inductive ValueArg where
  | str (s : String)
  | quantity (q : Quantity)
  | numeric (x : ℚ)
deriving DecidableEq, Repr

/-- The units argument of the _Quantity constructor.  The isinstance test
of the source accepts a UnitsContainer or a UnitDefinition (the definition
record of pint.unit, outside src/, represented here by the units payload it
carries) in one branch; the catch-all constructor carries the name of the
offending Python type. -/
inductive UnitsArg where
  | none
  | unitsContainer (u : UC)
  | unitDefinition (u : UC)
  | str (s : String)
  | quantity (q : Quantity)
  | other (typeName : String)
deriving DecidableEq, Repr

/-- The constructor dispatch of _Quantity.  The parameter tm stands for
util._to_magnitude (outside src/), which coerces the value argument to a
magnitude.  A UnitsContainer or UnitDefinition units argument is accepted
by one isinstance branch and stored verbatim as the units. -/
def quantityNew (R : Registry) (tm : ValueArg → ℚ) (value : ValueArg)
    (units : UnitsArg) : Except PintError Quantity :=
  match units with
  | .none =>
      match value with
      | .str s => .ok (R.parse_expression s)
      | .quantity q => .ok q
      | _ => .ok ⟨tm value, []⟩
  | .unitsContainer u => .ok ⟨tm value, u⟩
  | .unitDefinition u => .ok ⟨tm value, u⟩
  | .str s => .ok ⟨tm value, (R.parse_expression s).units⟩
  | .quantity q => .ok ⟨tm value, q.units⟩
  | .other typeName =>
      .error (.typeError
        ("units must be of type str, Quantity or UnitsContainer; not " ++
          typeName ++ "."))

/-- Modelled from the spec: a small concrete registry with a length
dimension (reference unit meter, with kilometer = 1000 meter) and a time
dimension (reference unit second), used to instantiate the theorems. -/
def R0 : Registry where
  parse_expression := fun _ => ⟨1, []⟩
  base_units_of := fun u =>
    if u = [("kilometer", 1)] then (1000, [("meter", 1)]) else (1, u)
  base_dimensionality_of := fun u =>
    if u = [("kilometer", 1)] ∨ u = [("meter", 1)] then [("[length]", 1)]
    else if u = [("second", 1)] then [("[time]", 1)]
    else if u = [] then []
    else u

/-! ## src/pint/systems.py -/

/-- Characters matched by the whitespace class of the Python re module. -/
def spaceChar (c : Char) : Bool :=
  c = ' ' || c = '\t' || c = '\n' || c = '\x0d' || c = '\x0b' || c = '\x0c'

/-- Characters matched by the word class of the Python re module (ASCII). -/
def wordChar (c : Char) : Bool :=
  c.isAlphanum || c = '_'

/-- Attempt of the header pattern of SystemDefinition at the start of cs:
the literal at-system keyword, one or more spaces, a word as the name, any
spaces, then optionally the literal word using followed by one space and
the rest of the line as the used-groups capture. -/
def matchHeaderAt (cs : List Char) : Option (String × Option String) :=
  if ("@system".toList).isPrefixOf cs then
    let r0 := cs.drop 7
    let r1 := r0.dropWhile spaceChar
    if (r0.takeWhile spaceChar).isEmpty then
      Option.none
    else
      let nm := r1.takeWhile wordChar
      let r3 := (r1.dropWhile wordChar).dropWhile spaceChar
      if nm.isEmpty then
        Option.none
      else if ("using".toList).isPrefixOf r3 &&
              (match r3.drop 5 with
               | c :: _ => spaceChar c
               | [] => false) then
        some (⟨nm⟩, some ⟨r3.drop 6⟩)
      else
        some (⟨nm⟩, Option.none)
  else
    Option.none

/-- The search of the header pattern over a line: try every start
position from the left, as the re module does. -/
def searchHeader : List Char → Option (String × Option String)
  | [] => Option.none
  | c :: cs =>
      match matchHeaderAt (c :: cs) with
      | some r => some r
      | Option.none => searchHeader cs

/-- Whether pat occurs as a contiguous run inside cs. -/
def containsSeq (pat : List Char) : List Char → Bool
  | [] => pat.isEmpty
  | c :: cs => pat.isPrefixOf (c :: cs) || containsSeq pat cs

/-- The strip method of Python str: drop whitespace at both ends. -/
def pyStrip (s : String) : String :=
  ⟨((s.toList.dropWhile spaceChar).reverse.dropWhile spaceChar).reverse⟩

/-- The split method of Python str on a single separator character. -/
def pySplit (sep : Char) (cs : List Char) : List (List Char) :=
  match cs with
  | [] => [[]]
  | c :: rest =>
      let r := pySplit sep rest
      if c = sep then
        [] :: r
      else
        match r with
        | h :: t => (c :: h) :: t
        | [] => [[c]]

/-- The record produced by SystemDefinition.from_lines: name, the numbered
replacement rules, and the used group names. -/
structure SystemDef where
  name : String
  unit_replacements : List (Nat × String × Option String)
  using_group_names : List String
deriving DecidableEq, Repr

/-- One body line of a system definition: on a colon, split into the new
and old unit names (a line with two or more colons fails to unpack); with
no colon the line is a bare new unit. -/
def parseRuleLine (line : String) : Except PintError (String × Option String) :=
  let l := pyStrip line
  if l.toList.contains ':' then
    match pySplit ':' l.toList with
    | [a, b] => .ok (pyStrip ⟨a⟩, some (pyStrip ⟨b⟩))
    | _ => .error (.valueError "too many values to unpack")
  else
    .ok (l, Option.none)

/-- The body lines of a system definition, each parsed with its line
number. -/
def parseRuleLines (rest : List String) :
    Except PintError (List (Nat × String × Option String)) :=
  rest.enum.mapM (fun p => do
    let (n, o) ← parseRuleLine p.2
    pure (p.1 + 1, n, o))

/-- The from_lines constructor of SystemDefinition.  The first line is the
header; the SourceIterator collaborator (outside src/) is modelled from the
spec as yielding the remaining lines with their line numbers.  A header
with no used-groups capture, or with an empty capture, defaults the group
list to the root group. -/
def SystemDefinition.from_lines (lines : List String) : Except PintError SystemDef := do
  match lines with
  | [] => .error (.valueError "no header line")
  | header :: rest =>
      match searchHeader header.toList with
      | Option.none =>
          .error (.valueError ("Invalid System header syntax " ++ header))
      | some (name, groups) =>
          let group_names :=
            match groups with
            | some g =>
                if g.isEmpty then ["root"]
                else (pySplit ',' g.toList).map (fun a => pyStrip ⟨a⟩)
            | Option.none => ["root"]
          let repls ← parseRuleLines rest
          pure ⟨pyStrip name, repls, group_names⟩

/-- Insertion into a Python dict modelled as an association list: an
existing key is overwritten in place, a new key is appended at the end. -/
def dictInsert {α : Type} (k : String) (v : α) :
    List (String × α) → List (String × α)
  | [] => [(k, v)]
  | (k1, v1) :: rest =>
      if k1 = k then (k, v) :: rest else (k1, v1) :: dictInsert k v rest

/-- Lookup in a Python dict modelled as an association list. -/
def lookupVal {α : Type} (k : String) : List (String × α) → Option α
  | [] => Option.none
  | (k1, v) :: rest => if k1 = k then some v else lookupVal k rest

/-- The value of the base_units attribute of System: root unit name to a
mapping from substitute unit name to exponent. -/
abbrev BaseUnitsDict := List (String × List (String × ℚ))

/-- The System object of src/pint/systems.py. -/
structure System where
  name : String
  base_units : BaseUnitsDict
  derived_units : Finset String
  used_groups : Finset String
  computed_members : Option (Finset String)
deriving DecidableEq

/-- The groups table of the registry: group name to its member set
(Group.members is a collaborator contract, modelled from the spec). -/
abbrev Groups := List (String × Finset String)

/-- The system table of the registry. -/
abbrev SystemTable := List (String × System)

/-- Resolution of one used group while computing members: an unresolvable
name is logged and skipped, which the union absorbs as the empty set. -/
def resolveGroup (groups : Groups) (g : String) : Finset String :=
  match lookupVal g groups with
  | some m => m
  | Option.none => ∅

/-- The members property of System: return the cache when present,
otherwise compute the union of the used groups and cache it. -/
def System.members (groups : Groups) (s : System) : Finset String × System :=
  match s.computed_members with
  | some m => (m, s)
  | Option.none =>
      let m := s.used_groups.biUnion (resolveGroup groups)
      (m, { s with computed_members := some m })

/-- The add_groups method of System: extend the used-group set and
invalidate the member cache. -/
def System.add_groups (s : System) (gs : Finset String) : System :=
  { s with used_groups := s.used_groups ∪ gs, computed_members := Option.none }

/-- The remove_groups method of System: shrink the used-group set and
invalidate the member cache. -/
def System.remove_groups (s : System) (gs : Finset String) : System :=
  { s with used_groups := s.used_groups \ gs, computed_members := Option.none }

/-- One replacement rule of System.from_definition.  The parameter getRoot
stands for the root-unit resolver (outside src/): it returns the (factor,
root expansion) of a unit name; ucStr stands for the string rendering of a
UnitsContainer used by the root-unit check of the source. -/
def processRule (getRoot : String → ℚ × UC) (ucStr : UC → String)
    (newU : String) (oldU : Option String) :
    Except PintError (String × List (String × ℚ)) :=
  match oldU with
  | Option.none =>
      match (getRoot newU).2 with
      | [(old, value)] => .ok (old, [(newU, 1 / value)])
      | _ => .error (.valueError
          "The new base must be a root dimension if not discarded unit is specified.")
  | some old =>
      if ¬ (old = ucStr (getRoot old).2) then
        .error (.valueError
          ("the unit at the right of the colon (" ++ old ++ ") must be a root unit."))
      else
        match lookupVal old (getRoot newU).2 with
        | Option.none => .error (.valueError "Old unit must be a component of new unit")
        | some e =>
            let d := ((getRoot newU).2.filter (fun p => decide (¬ (p.1 = old)))).map
              (fun p => (p.1, -1 / p.2))
            .ok (old, dictInsert newU (1 / e) d)

/-- One iteration of the rule loop of System.from_definition: process the
rule and merge its mapping into the base-units dictionary being built. -/
def ruleStep (getRoot : String → ℚ × UC) (ucStr : UC → String)
    (acc : BaseUnitsDict) (r : Nat × String × Option String) :
    Except PintError BaseUnitsDict := do
  let (old, dict) ← processRule getRoot ucStr r.2.1 r.2.2
  pure (dictInsert old dict acc)

/-- The from_definition constructor of System: process every rule into the
base-units dictionary, and only after the whole loop succeeds create the
system, register it in the table under its name, set its used groups from
the definition and populate base_units. -/
def System.from_definition (getRoot : String → ℚ × UC) (ucStr : UC → String)
    (d : SystemDef) (table : SystemTable) :
    Except PintError (System × SystemTable) := do
  let bun ← d.unit_replacements.foldlM (ruleStep getRoot ucStr) ([] : BaseUnitsDict)
  let s : System :=
    { name := d.name
      base_units := bun
      derived_units := ∅
      used_groups := d.using_group_names.toFinset
      computed_members := Option.none }
  pure (s, dictInsert d.name s table)

/-- The system table seen by the caller after a construction attempt: the
table of the new system on success, the untouched previous table when the
construction raised. -/
def systemsAfter (getRoot : String → ℚ × UC) (ucStr : UC → String)
    (d : SystemDef) (table : SystemTable) : SystemTable :=
  match System.from_definition getRoot ucStr d table with
  | .ok p => p.2
  | .error _ => table

/-- Modelled from the spec: a concrete root-unit resolver for the
theorems.  meter and second are root units; kilometer is 1000 meter; the
unit named flux expands to meter squared times second. -/
def getRoot0 : String → ℚ × UC := fun u =>
  if u = "kilometer" then (1000, [("meter", 1)])
  else if u = "flux" then (1, [("meter", 2), ("second", 1)])
  else (1, [(u, 1)])

/-- Modelled from the spec: the string rendering of a UnitsContainer,
which prints a single unit of exponent one as the bare name. -/
def ucStr0 : UC → String := fun u =>
  match u with
  | [(n, e)] => if e = 1 then n else n ++ " ** " ++ toString e
  | _ => String.intercalate " * " (u.map (fun p => p.1 ++ " ** " ++ toString p.2))

/-- Follows the words of the spec on additive operators: equal
dimensionality required, conversion of the right operand to the units of
the left by the ratio of reference factors when units differ, and the
dimensionless gate for bare numbers. -/
def iadd_sub_spec (R : Registry) (self : Quantity) (other : Operand)
    (f : ℚ → ℚ → ℚ) : Except PintError Quantity :=
  match other with
  | .quantity o =>
      if ¬ (R.base_dimensionality_of self.units = R.base_dimensionality_of o.units) then
        .error .dimensionalityError
      else if self.units = o.units then
        .ok ⟨f self.magnitude o.magnitude, self.units⟩
      else
        .ok ⟨f self.magnitude
              (o.magnitude * (R.base_units_of o.units).1 / (R.base_units_of self.units).1),
            self.units⟩
  | .scalar x =>
      if self.dimensionless R then
        .ok ⟨f self.magnitude x, self.units⟩
      else
        .error .dimensionalityError

/-! ## Claim theorems -/

/-- Claim C1: evaluation of the ordering comparison at a concrete failing
input.  The quantities 1 kilometer and 5000 meter have equal dimensionality
and different units; the code returns false although the reference
magnitude of the left operand (1000) is below the reference magnitude of
the right operand (5000), because the source compares the left reference
magnitude with itself. -/
theorem lt_self_comparison_eval :
    Quantity.lt R0 ⟨1, [("kilometer", 1)]⟩ (.quantity ⟨5000, [("meter", 1)]⟩) =
      .ok false ∧
    (Quantity.convert_to_reference R0 ⟨1, [("kilometer", 1)]⟩).magnitude <
      (Quantity.convert_to_reference R0 ⟨5000, [("meter", 1)]⟩).magnitude := by
  constructor
  · simp only [Quantity.lt]
    rw [if_neg (by decide), if_neg (by decide)]
    norm_num [Quantity.convert_to_reference, R0]
  · simp [Quantity.convert_to_reference, R0]
    norm_num

/-- Claim C2: evaluation of System.from_definition at a concrete failing
input.  The rule flux : second, with flux expanding to meter squared times
second, yields a base_units entry mapping meter to -1/2 (the negated
reciprocal of the meter exponent), not to -2 (the meter exponent negated
and divided by the exponent of second) as the claim states. -/
theorem from_definition_entry_eval :
    (System.from_definition getRoot0 ucStr0
        ⟨"sys2", [(1, "flux", some "second")], ["root"]⟩ []).map
      (fun p => lookupVal "second" p.1.base_units) =
      .ok (some [("meter", -1/2), ("flux", 1)]) ∧
    (-1 / 2 : ℚ) ≠ -2 / 1 := by
  constructor
  · simp [System.from_definition, ruleStep, processRule, getRoot0, ucStr0,
      dictInsert, lookupVal, List.foldlM, Except.map]
  · norm_num

/-- Claim C5: when both magnitudes are zero, equality returns exactly the
test that the two dimensionalities agree, whatever the units are. -/
theorem eq_zero_zero_dimensionality (R : Registry) (a b : Quantity)
    (ha : a.magnitude = 0) (hb : b.magnitude = 0) :
    a.eq R (.quantity b) = decide (a.dimensionality R = b.dimensionality R) := by
  simp only [Quantity.eq]
  rw [if_pos ⟨ha, hb⟩]

/-- Claim C5 witness: zero meters equals zero seconds is false, because
the dimensionalities differ. -/
theorem eq_zero_zero_dimensionality_witness :
    Quantity.eq R0 ⟨0, [("meter", 1)]⟩ (.quantity ⟨0, [("second", 1)]⟩) = false := by
  rw [eq_zero_zero_dimensionality R0 ⟨0, [("meter", 1)]⟩ ⟨0, [("second", 1)]⟩ rfl rfl]
  decide

/-- Claim C4: for nonzero magnitudes and incompatible dimensionalities,
equality degrades the failed conversion to false, while the ordering
comparison surfaces the dimensionality error. -/
theorem eq_recovers_dimensionality_error (R : Registry) (a b : Quantity)
    (ha : a.magnitude ≠ 0) (_hb : b.magnitude ≠ 0)
    (hd : a.dimensionality R ≠ b.dimensionality R) :
    a.eq R (.quantity b) = false ∧
    a.lt R (.quantity b) = .error .dimensionalityError := by
  have hu : ¬ (a.units = b.units) := by
    intro h
    exact hd (by simp [Quantity.dimensionality, h])
  have hd0 : ¬ (R.base_dimensionality_of a.units = R.base_dimensionality_of b.units) := hd
  constructor
  · simp only [Quantity.eq]
    rw [if_neg (by rintro ⟨h0, _⟩; exact ha h0), if_neg hu]
    simp [Quantity.to, Registry.convert, hd0]
  · simp only [Quantity.lt]
    rw [if_neg hu, if_pos hd]

/-- Claim C4 witness: one meter and one second at the concrete registry. -/
theorem eq_recovers_dimensionality_error_witness :
    Quantity.eq R0 ⟨1, [("meter", 1)]⟩ (.quantity ⟨1, [("second", 1)]⟩) = false ∧
    Quantity.lt R0 ⟨1, [("meter", 1)]⟩ (.quantity ⟨1, [("second", 1)]⟩) =
      .error .dimensionalityError :=
  eq_recovers_dimensionality_error R0 ⟨1, [("meter", 1)]⟩ ⟨1, [("second", 1)]⟩
    (by decide) (by decide) (by decide)

/-- Claim C7: for a dimensionless quantity, the reflected subtraction by a
bare number is the very same function as plain subtraction, and yields the
magnitude of the quantity minus the number, under the units of the
quantity. -/
theorem rsub_is_sub (R : Registry) (q : Quantity) (n : ℚ)
    (h : q.dimensionless R = true) :
    scalarSubQuantity R n q = q.sub R (.scalar n) ∧
    q.sub R (.scalar n) = .ok ⟨q.magnitude - n, q.units⟩ := by
  refine ⟨rfl, ?_⟩
  simp [Quantity.sub, Quantity.add_sub, Quantity.iadd_sub, h]

/-- Claim C7 witness: 3 - (5 dimensionless) computes 5 - 3 = 2. -/
theorem rsub_is_sub_witness :
    scalarSubQuantity R0 3 ⟨5, []⟩ = .ok ⟨2, []⟩ := by
  have h := rsub_is_sub R0 ⟨5, []⟩ 3 (by decide)
  rw [h.1, h.2]
  norm_num

/-- Claim C10 counterexample: a UnitDefinition units argument is none of
None, a UnitsContainer, a string or a Quantity, yet the constructor
accepts it without error, storing it as the units, so the claim that every
such argument fails with a type error is false of the program. -/
theorem ctor_unit_definition_accepted :
    quantityNew R0 (fun _ => 3) (.numeric 3) (.unitDefinition [("meter", 1)]) =
      .ok ⟨3, [("meter", 1)]⟩ :=
  rfl

/-- Claim C10 as amended: a units argument that is neither absent, a
UnitsContainer, a UnitDefinition, a string nor a Quantity makes the
constructor fail with a type error whose message names the type of the
offending argument. -/
theorem ctor_bad_units_type_error (R : Registry) (tm : ValueArg → ℚ)
    (value : ValueArg) (ty : String) :
    quantityNew R tm value (.other ty) =
      .error (.typeError
        ("units must be of type str, Quantity or UnitsContainer; not " ++ ty ++ ".")) :=
  rfl

/-- Claim C3: the in-place and copy forms of addition and subtraction both
agree with the specified behaviour: a Quantity operand of different
dimensionality raises a dimensionality error, one of equal dimensionality
but different units is converted to the units of the left operand before
the magnitudes are combined, and a bare number is accepted exactly when the
left operand is dimensionless. -/
theorem iadd_sub_follows_spec (R : Registry) (self : Quantity) (other : Operand)
    (f : ℚ → ℚ → ℚ) :
    self.iadd_sub R other f = iadd_sub_spec R self other f ∧
    self.add_sub R other f = iadd_sub_spec R self other f := by
  have main : self.iadd_sub R other f = iadd_sub_spec R self other f := by
    cases other with
    | scalar x => rfl
    | quantity o =>
      simp only [Quantity.iadd_sub, iadd_sub_spec, Quantity.dimensionality]
      by_cases hd : R.base_dimensionality_of self.units = R.base_dimensionality_of o.units
      · have h1 : ¬¬(R.base_dimensionality_of self.units = R.base_dimensionality_of o.units) :=
          not_not_intro hd
        rw [if_neg h1, if_neg h1]
        by_cases hu : self.units = o.units
        · rw [if_pos hu, if_pos hu]
        · rw [if_neg hu, if_neg hu]
          simp only [Quantity.to, Registry.convert]
          rw [if_pos hd.symm]
          rfl
      · rw [if_pos hd, if_pos hd]
  exact ⟨main, main⟩

/-- A replacement rule of the kinds the spec lists as failing: a bare new
unit whose root expansion has more than one term, or an explicit rule whose
old unit is not a root unit or is absent from the root expansion of the new
unit. -/
def failingRule (getRoot : String → ℚ × UC) (ucStr : UC → String)
    (r : Nat × String × Option String) : Prop :=
  (r.2.2 = Option.none ∧ 1 < ((getRoot r.2.1).2).length) ∨
  (∃ old, r.2.2 = some old ∧
    (¬ (old = ucStr (getRoot old).2) ∨ lookupVal old (getRoot r.2.1).2 = Option.none))

/-- Processing a failing rule produces an error. -/
theorem processRule_error_of_failing (getRoot : String → ℚ × UC) (ucStr : UC → String)
    (r : Nat × String × Option String) (h : failingRule getRoot ucStr r) :
    ∃ e, processRule getRoot ucStr r.2.1 r.2.2 = .error e := by
  rcases h with ⟨hnone, hlen⟩ | ⟨old, hsome, hbad⟩
  · refine ⟨.valueError
      "The new base must be a root dimension if not discarded unit is specified.", ?_⟩
    simp only [processRule, hnone]
    cases hexp : (getRoot r.2.1).2 with
    | nil => rfl
    | cons hd tl =>
      cases tl with
      | nil =>
          exfalso
          rw [hexp] at hlen
          simp at hlen
      | cons hd2 tl2 => rfl
  · by_cases hroot : old = ucStr (getRoot old).2
    · have hlook : lookupVal old (getRoot r.2.1).2 = Option.none := by
        rcases hbad with hb | hb
        · exact absurd hroot hb
        · exact hb
      refine ⟨.valueError "Old unit must be a component of new unit", ?_⟩
      simp only [processRule, hsome]
      rw [if_neg (not_not_intro hroot), hlook]
    · refine ⟨.valueError
        ("the unit at the right of the colon (" ++ old ++ ") must be a root unit."), ?_⟩
      simp only [processRule, hsome]
      rw [if_pos hroot]

/-- The rule loop errors as soon as any rule of the list errors. -/
theorem foldlM_ruleStep_error (getRoot : String → ℚ × UC) (ucStr : UC → String) :
    ∀ (l : List (Nat × String × Option String)) (acc : BaseUnitsDict),
      (∃ r ∈ l, ∃ e, processRule getRoot ucStr r.2.1 r.2.2 = .error e) →
      ∃ e, l.foldlM (ruleStep getRoot ucStr) acc = .error e := by
  intro l
  induction l with
  | nil =>
      rintro acc ⟨r, hr, _⟩
      simp at hr
  | cons hd tl ih =>
      rintro acc ⟨r, hr, e, he⟩
      rw [List.foldlM_cons]
      cases hstep : ruleStep getRoot ucStr acc hd with
      | error e2 => exact ⟨e2, rfl⟩
      | ok acc2 =>
          have hrtl : r ∈ tl := by
            rcases List.mem_cons.mp hr with heq | htl
            · exfalso
              rw [← heq] at hstep
              unfold ruleStep at hstep
              rw [he] at hstep
              exact Except.noConfusion hstep
            · exact htl
          obtain ⟨e3, h3⟩ := ih acc2 ⟨r, hrtl, e, he⟩
          exact ⟨e3, h3⟩

/-- Claim C6: a definition whose replacement rules contain a failing rule
makes System.from_definition raise an error, and the system table the
caller holds afterwards is unchanged: nothing was registered under the
name of the definition, because the error is raised before the
registration step. -/
theorem construction_error_leaves_table (getRoot : String → ℚ × UC)
    (ucStr : UC → String) (d : SystemDef) (table : SystemTable)
    (h : ∃ r ∈ d.unit_replacements, failingRule getRoot ucStr r) :
    (∃ e, System.from_definition getRoot ucStr d table = .error e) ∧
    systemsAfter getRoot ucStr d table = table := by
  obtain ⟨r, hr, hf⟩ := h
  obtain ⟨e, he⟩ := processRule_error_of_failing getRoot ucStr r hf
  obtain ⟨e2, he2⟩ := foldlM_ruleStep_error getRoot ucStr d.unit_replacements [] ⟨r, hr, e, he⟩
  have hfd : System.from_definition getRoot ucStr d table = .error e2 := by
    unfold System.from_definition
    rw [he2]
    rfl
  exact ⟨⟨e2, hfd⟩, by simp [systemsAfter, hfd]⟩

/-- Claim C6 witness: the rule speed : kilometer fails because kilometer
is not a root unit, and the empty system table stays empty. -/
theorem construction_error_leaves_table_witness :
    (∃ e, System.from_definition getRoot0 ucStr0
        ⟨"bad", [(1, "speed", some "kilometer")], ["root"]⟩ [] = .error e) ∧
    systemsAfter getRoot0 ucStr0 ⟨"bad", [(1, "speed", some "kilometer")], ["root"]⟩ [] = [] :=
  construction_error_leaves_table getRoot0 ucStr0
    ⟨"bad", [(1, "speed", some "kilometer")], ["root"]⟩ []
    ⟨(1, "speed", some "kilometer"), by simp,
      Or.inr ⟨"kilometer", rfl, Or.inl (by decide)⟩⟩

/-- A groups table in which the groups x and y share the member a. -/
def groupsX : Groups := [("x", {"a"}), ("y", {"a"})]

/-- A system that uses only the group y, with an empty member cache. -/
def sysY : System :=
  ⟨"s", [], ∅, {"y"}, Option.none⟩

/-- Claim C8 counterexample: with group y still in use and sharing the
member a with group x, the member a of x is still present in members after
add_groups of x followed by remove_groups of x, so the members of x are
not excluded again. -/
theorem members_shared_counterexample :
    "a" ∈ (System.members groupsX ((sysY.add_groups {"x"}).remove_groups {"x"})).1 ∧
    "a" ∈ resolveGroup groupsX "x" := by
  constructor
  · decide
  · decide

/-- Claim C8 as amended: after add_groups of a resolvable group x the
members include every member of x, and after a subsequent remove_groups of
x the members recompute to exactly the union of the remaining used groups,
so a member of x is excluded unless it belongs to another remaining used
group.  Each mutation clears the cache, so both equalities hold whatever
was cached before. -/
theorem members_recompute_after_mutation (groups : Groups) (s : System) (x : String)
    (m : Finset String) (h : lookupVal x groups = some m) :
    m ⊆ (System.members groups (s.add_groups {x})).1 ∧
    (System.members groups ((s.add_groups {x}).remove_groups {x})).1 =
      (s.used_groups \ {x}).biUnion (resolveGroup groups) := by
  constructor
  · intro a ha
    simp only [System.members, System.add_groups]
    refine Finset.mem_biUnion.mpr ⟨x, Finset.mem_union_right _ (Finset.mem_singleton_self x), ?_⟩
    simpa [resolveGroup, h] using ha
  · simp only [System.members, System.remove_groups, System.add_groups]
    rw [Finset.union_sdiff_distrib, Finset.sdiff_self, Finset.union_empty]

/-- Claim C8 witness: the amended statement at the concrete groups table. -/
theorem members_recompute_after_mutation_witness :
    ({"a"} : Finset String) ⊆ (System.members groupsX (sysY.add_groups {"x"})).1 ∧
    (System.members groupsX ((sysY.add_groups {"x"}).remove_groups {"x"})).1 =
      (sysY.used_groups \ {"x"}).biUnion (resolveGroup groupsX) :=
  members_recompute_after_mutation groupsX sysY "x" {"a"} (by decide)

/-- A pattern occurring as a prefix occurs as a contiguous run. -/
theorem containsSeq_of_isPrefixOf {pat cs : List Char}
    (h : pat.isPrefixOf cs = true) : containsSeq pat cs = true := by
  cases cs with
  | nil =>
      cases pat with
      | nil => rfl
      | cons c cs2 => simp [List.isPrefixOf] at h
  | cons c cs2 =>
      simp only [containsSeq, h, Bool.true_or]

/-- Occurrence inside the dropWhile of a list is occurrence in the list. -/
theorem containsSeq_dropWhile {pat : List Char} (p : Char → Bool) :
    ∀ l : List Char, containsSeq pat (l.dropWhile p) = true → containsSeq pat l = true := by
  intro l
  induction l with
  | nil => simp [List.dropWhile]
  | cons c cs ih =>
      simp only [List.dropWhile]
      cases hp : p c
      · simp only []
        exact fun h => h
      · simp only []
        intro h
        have := ih h
        simp only [containsSeq, this, Bool.or_true]

/-- Occurrence inside the drop of a list is occurrence in the list. -/
theorem containsSeq_drop {pat : List Char} :
    ∀ (n : Nat) (l : List Char), containsSeq pat (l.drop n) = true → containsSeq pat l = true := by
  intro n
  induction n with
  | zero => intro l h; simpa using h
  | succ k ih =>
      intro l
      cases l with
      | nil => simp [List.drop]
      | cons c cs =>
          intro h
          have := ih cs (by simpa [List.drop] using h)
          simp only [containsSeq, this, Bool.or_true]

/-- A used-groups capture from the header pattern requires the word using
to occur in the matched text. -/
theorem matchHeaderAt_groups_using {cs : List Char} {n : String} {g : String}
    (h : matchHeaderAt cs = some (n, some g)) :
    containsSeq ("using".toList) cs = true := by
  unfold matchHeaderAt at h
  by_cases h7 : ("@system".toList).isPrefixOf cs = true
  · rw [if_pos h7] at h
    set r0 := cs.drop 7 with hr0
    by_cases hsp : (r0.takeWhile spaceChar).isEmpty = true
    · rw [if_pos hsp] at h
      exact absurd h (by simp)
    · rw [if_neg hsp] at h
      set r1 := r0.dropWhile spaceChar with hr1
      by_cases hnm : (r1.takeWhile wordChar).isEmpty = true
      · rw [if_pos hnm] at h
        exact absurd h (by simp)
      · rw [if_neg hnm] at h
        set r3 := (r1.dropWhile wordChar).dropWhile spaceChar with hr3
        by_cases hu : (("using".toList).isPrefixOf r3 &&
            (match r3.drop 5 with
             | c :: _ => spaceChar c
             | [] => false)) = true
        · have hpre : ("using".toList).isPrefixOf r3 = true :=
            (Bool.and_eq_true _ _).mp hu |>.1
          have h3 : containsSeq ("using".toList) r3 = true :=
            containsSeq_of_isPrefixOf hpre
          have h2 : containsSeq ("using".toList) (r1.dropWhile wordChar) = true :=
            containsSeq_dropWhile spaceChar _ h3
          have h1 : containsSeq ("using".toList) r1 = true :=
            containsSeq_dropWhile wordChar _ h2
          have h0 : containsSeq ("using".toList) r0 = true :=
            containsSeq_dropWhile spaceChar _ h1
          exact containsSeq_drop 7 cs h0
        · rw [if_neg hu] at h
          exact absurd h (by simp)
  · rw [if_neg h7] at h
    exact absurd h (by simp)

/-- A used-groups capture from the header search requires the word using
to occur in the line. -/
theorem searchHeader_groups_using :
    ∀ {cs : List Char} {n g : String},
      searchHeader cs = some (n, some g) → containsSeq ("using".toList) cs = true := by
  intro cs
  induction cs with
  | nil => intro n g h; simp [searchHeader] at h
  | cons c cs2 ih =>
      intro n g h
      simp only [searchHeader] at h
      cases hm : matchHeaderAt (c :: cs2) with
      | some r =>
          rw [hm] at h
          injection h with h3
          subst h3
          exact matchHeaderAt_groups_using hm
      | none =>
          rw [hm] at h
          have := ih h
          simp only [containsSeq, this, Bool.or_true]

/-- Claim C9: when the header line nowhere contains the word using, any
definition produced by SystemDefinition.from_lines carries the one-element
group list root. -/
theorem no_using_defaults_root (header : String) (rest : List String) (d : SystemDef)
    (h1 : containsSeq ("using".toList) header.toList = false)
    (h2 : SystemDefinition.from_lines (header :: rest) = .ok d) :
    d.using_group_names = ["root"] := by
  simp only [SystemDefinition.from_lines] at h2
  cases hs : searchHeader header.toList with
  | none =>
      rw [hs] at h2
      exact Except.noConfusion h2
  | some r =>
      obtain ⟨name, groups⟩ := r
      cases groups with
      | some g =>
          have hu := searchHeader_groups_using hs
          rw [h1] at hu
          exact Bool.noConfusion hu
      | none =>
          rw [hs] at h2
          cases hp : parseRuleLines rest with
          | error e =>
              rw [hp] at h2
              exact Except.noConfusion h2
          | ok repls =>
              rw [hp] at h2
              injection h2 with h3
              rw [← h3]

/-- Claim C9 witness: the header line of the spec example. -/
theorem no_using_defaults_root_witness :
    containsSeq ("using".toList) ("@system mysys").toList = false ∧
    SystemDefinition.from_lines ["@system mysys"] = .ok ⟨"mysys", [], ["root"]⟩ ∧
    (⟨"mysys", [], ["root"]⟩ : SystemDef).using_group_names = ["root"] :=
  ⟨by decide, by rfl,
    no_using_defaults_root "@system mysys" [] ⟨"mysys", [], ["root"]⟩ (by decide) (by rfl)⟩

end Pint
